import Mathlib

/-!
Shallow embedding of heatmap.py (heatmappy).

A Heatmapper renders a density heatmap from 2D points: a greyscale
rasterizer (PySideGreyHeatmapper, QPainter radial gradients on a white
canvas) followed by a colormap stage (matplotlib LinearSegmentedColormap)
and an opacity stage (PIL), optionally composited over a background image.

Modelling conventions: 8-bit channels are Nat with values in 0..255;
Python floats are exact rationals; Python int() is truncation toward
zero; the file system is passed in explicitly as a function from paths to
optional decoded images; calls that can raise return Except. External
library primitives (Qt painting, matplotlib lookup tables, PIL
compositing) are modelled from their documented behaviour at pixel
granularity, with fixed-point arithmetic standing in for their float
internals where noted.
-/

/-- An 8-bit RGBA pixel; each channel ranges over 0..255. -/
structure RGBA where
  r : Nat
  g : Nat
  b : Nat
  a : Nat
deriving DecidableEq, Repr

/-- A colour with channels as rationals in [0,1], the form in which
matplotlib stores colormap anchors (heatmap.py line 66 normalises each
sampled byte by 255). -/
structure QColorF where
  r : ℚ
  g : ℚ
  b : ℚ
  a : ℚ
deriving DecidableEq, Repr

def rgbaZero : RGBA := ⟨0, 0, 0, 0⟩

def qcZero : QColorF := ⟨0, 0, 0, 0⟩

/-- Python int() applied to a real number: truncation toward zero. -/
def pyInt (q : ℚ) : ℤ := if q < 0 then ⌈q⌉ else ⌊q⌋

/-- A width x height single-channel greyscale image; px x y is the value
of the pixel in column x, row y (0 = black = maximal density, 255 = white
= no density). -/
structure GreyField where
  width : Nat
  height : Nat
  px : Nat → Nat → Nat

/-- A width x height RGBA image. -/
structure Img where
  width : Nat
  height : Nat
  px : Nat → Nat → RGBA

/-- A decoded reference image used for colormap construction: its top row
of pixels and its pixel height. -/
structure RefImage where
  topRow : List RGBA
  height : Nat
deriving DecidableEq, Repr

/-- The failure kinds of the pipeline, as named by the specification:
an unreadable source, a degenerate reference image, and a background
whose size disagrees with the requested canvas. -/
inductive HeatmapErr where
  | fileAccess
  | invalidResource
  | dimensionMismatch
deriving DecidableEq, Repr

/-- The colours argument of Heatmapper.__init__ (lines 28-36): either a
prebuilt matplotlib colormap instance, or a string naming a preset or a
file path. -/
inductive Colours where
  | cmapObj (anchors : List QColorF)
  | str (s : String)

/-- The preset table files = {default: ..., reveal: ...} of lines 32-35;
the values stand for the bundled images next to the module. -/
def filesMap (s : String) : Option String :=
  if s = "default" then some "default.png"
  else if s = "reveal" then some "reveal.png"
  else none

/-- Models PIL Image.resize((256, height)) acting on the top row of the
reference image: a row that is already 256 wide is unchanged; any other
width is resampled to 256 columns (PIL filters in floating point; plain
index remapping stands in here, and every theorem below exercises only
the 256-wide branch, where resize is the identity). -/
def resize256 (row : List RGBA) : List RGBA :=
  if row.length = 256 then row
  else List.ofFn fun i : Fin 256 => row.getD (i.val * row.length / 256) rgbaZero

/-- heatmap.py line 66: each of the 256 sampled colours is normalised
channelwise by 255 into a colormap anchor. -/
def cmapFromImagePixels (row : List RGBA) : List QColorF :=
  row.map fun p => ⟨(p.r : ℚ) / 255, (p.g : ℚ) / 255, (p.b : ℚ) / 255, (p.a : ℚ) / 255⟩

/-- Heatmapper._cmap_from_image_path (lines 61-67): open the image at the
path (a missing or unreadable path raises: the file-access failure),
resize it to 256 columns, sample the top-row pixel of each column in
left-to-right order (an image of height zero has no row 0 and raises:
the invalid-resource failure), and normalise the colours into anchors. -/
def cmap_from_image_path (fs : String → Option RefImage) (img_path : String) :
    Except HeatmapErr (List QColorF) :=
  match fs img_path with
  | none => .error .fileAccess
  | some img =>
      if img.height = 0 then .error .invalidResource
      else .ok (cmapFromImagePixels (resize256 img.topRow))

/-- PySideGreyHeatmapper configuration (lines 108-111): the point
diameter dm, and point_strength = int(point_strength * 255). -/
structure PySideGreyHeatmapper where
  dm : ℚ
  point_strength : ℤ
deriving DecidableEq, Repr

/-- The Heatmapper object after construction: the colormap anchors
(self.cmap), the overlay opacity (self._opacity, line 26), and the grey
heatmapper (self.grey_heatmapper); the default PySide backend is
modelled. -/
structure Heatmapper where
  cmap : List QColorF
  opacity : ℚ
  grey_heatmapper : PySideGreyHeatmapper
deriving DecidableEq, Repr

/-- Heatmapper.__init__ (lines 13-42): store the opacity; if colours is a
prebuilt colormap use it, otherwise resolve the string through the preset
table (files.get(colours) or colours, line 36) and build the colormap
from that path; build the PySide grey heatmapper from point_diameter and
alpha_strength. No range validation of any numeric option occurs. -/
def Heatmapper.init (point_diameter alpha_strength opacity : ℚ)
    (colours : Colours) (fs : String → Option RefImage) :
    Except HeatmapErr Heatmapper :=
  let grey : PySideGreyHeatmapper := ⟨point_diameter, pyInt (alpha_strength * 255)⟩
  match colours with
  | .cmapObj anchors => .ok ⟨anchors, opacity, grey⟩
  | .str s =>
      let scale_path := (filesMap s).getD s
      match cmap_from_image_path fs scale_path with
      | .error e => .error e
      | .ok anchors => .ok ⟨anchors, opacity, grey⟩

/-- QColor alpha channel: an 8-bit value; the source guards below zero
with max(point_strength, 0) (line 135) and QColor clamps above at 255. -/
def qcolorAlpha (s : ℤ) : Nat := min (max s 0).toNat 255

/-- Square root of a nonnegative rational in 1/256 fixed point:
sqrt256 q approximates 256 * sqrt q from below. -/
def sqrt256 (q : ℚ) : Nat := Nat.sqrt (⌊q * 65536⌋).toNat

/-- Alpha of the radial-gradient brush of _paint_point (lines 127-139)
sampled at pixel (x, y): the QRadialGradient is black with alpha fading
linearly from point_strength at the centre (colour stop 0) to 0 at radius
dm/2 (colour stop 1), and drawEllipse paints nothing outside that radius.
Qt renders with floating-point antialiasing; the model samples at pixel
granularity in 1/256 fixed point. -/
def brushAlpha (g : PySideGreyHeatmapper) (pt : ℚ × ℚ) (x y : Nat) : Nat :=
  let r := g.dm / 2
  let dist2 := ((x : ℚ) - pt.1) ^ 2 + ((y : ℚ) - pt.2) ^ 2
  if 0 < r ∧ dist2 ≤ r ^ 2 then
    qcolorAlpha g.point_strength * (256 - sqrt256 (dist2 / r ^ 2)) / 256
  else 0

/-- Source-over composition of a black brush of alpha a onto an opaque
grey pixel of value v (the QPainter default composition mode): the
channel becomes v * (255 - a) / 255. -/
def srcOver (v a : Nat) : Nat := v * (255 - a) / 255

/-- PySideGreyHeatmapper._paint_point (lines 127-139): composite the
radial brush for one point over the whole canvas. -/
def paint_point (g : PySideGreyHeatmapper) (pt : ℚ × ℚ) (f : GreyField) : GreyField :=
  ⟨f.width, f.height, fun x y => srcOver (f.px x y) (brushAlpha g pt x y)⟩

/-- PySideGreyHeatmapper._paint_points (lines 120-125): paint every point
in order, consuming the sequence exactly once. -/
def paint_points (g : PySideGreyHeatmapper) (points : List (ℚ × ℚ))
    (f : GreyField) : GreyField :=
  points.foldl (fun acc p => paint_point g p acc) f

/-- PySideGreyHeatmapper.heatmap (lines 113-118): a width x height canvas
filled with opaque white (255 everywhere), painted point by point, then
converted to greyscale; every painted colour is already grey with full
alpha, so the PIL L conversion returns the channel value unchanged. -/
def PySideGreyHeatmapper.heatmap (g : PySideGreyHeatmapper)
    (width height : Nat) (points : List (ℚ × ℚ)) : GreyField :=
  paint_points g points ⟨width, height, fun _ _ => 255⟩

/-- matplotlib byte output: with bytes=True each channel in [0,1] is
scaled by 255 and cast to uint8, truncating toward zero. -/
def byteOf (c : QColorF) : RGBA :=
  ⟨(pyInt (c.r * 255)).toNat, (pyInt (c.g * 255)).toNat,
   (pyInt (c.b * 255)).toNat, (pyInt (c.a * 255)).toNat⟩

/-- matplotlib colormap lookup for an 8-bit greyscale value: integer
input indexes the lookup table directly, and for a colormap built by
from_list out of 256 evenly spaced anchors with N = 256 table entries,
entry i equals anchor i. -/
def cmapByteIndex (anchors : List QColorF) (v : Nat) : RGBA :=
  byteOf (anchors.getD v qcZero)

/-- Heatmapper._colourise (lines 77-81): map every greyscale value of the
field through the colormap, giving an RGBA image of the same size. -/
def colourise (anchors : List QColorF) (f : GreyField) : Img :=
  ⟨f.width, f.height, fun x y => cmapByteIndex anchors (f.px x y)⟩

/-- matplotlib colormap evaluation at a float position x with byte
output: the table index is int(x * 256), with x = 1 mapped back to the
last entry and the index clipped into 0..255. -/
def cmapFloat (anchors : List QColorF) (x : ℚ) : RGBA :=
  byteOf (anchors.getD (min (pyInt (x * 256)).toNat 255) qcZero)

/-- The alpha band of an RGBA image (img.split()[3], line 86). -/
def splitAlpha (img : Img) : GreyField :=
  ⟨img.width, img.height, fun x y => (img.px x y).a⟩

/-- PIL stores lookup-table entries for 8-bit bands through its CLIP8
macro: values are clamped into 0..255. -/
def clip8 (n : ℤ) : Nat := min n.toNat 255

/-- Image.point with the lambda of line 87: every alpha byte p becomes
int(p * opacity), and the resulting lookup-table entry is clamped by PIL
into the valid 8-bit range 0..255. -/
def pointLut (opacity : ℚ) (f : GreyField) : GreyField :=
  ⟨f.width, f.height, fun x y => clip8 (pyInt ((f.px x y : ℚ) * opacity))⟩

/-- img.putalpha(alpha) (line 88): replace the alpha band, keeping the
colour channels. -/
def putalpha (img : Img) (al : GreyField) : Img :=
  ⟨img.width, img.height, fun x y =>
    ⟨(img.px x y).r, (img.px x y).g, (img.px x y).b, al.px x y⟩⟩

/-- Heatmapper._to_opacity (lines 83-89): copy the image, extract its
alpha band, scale that band by the opacity factor, and write it back; the
copy at line 85 makes the result a fresh image and the argument is never
mutated. -/
def to_opacity (img : Img) (opacity : ℚ) : Img :=
  putalpha img (pointLut opacity (splitAlpha img))

/-- Python truthiness of the base_path argument: None and the empty
string are falsy. -/
def pathTruthy : Option String → Bool
  | none => false
  | some s => s != ""

/-- Python truthiness of the base_img argument: a PIL image object is
always truthy, None is falsy. -/
def imgTruthy : Option Img → Bool
  | none => false
  | some _ => true

/-- PIL Image.open for a background path, reading through the ambient
file system; a missing or unreadable path raises: the file-access
failure. -/
def openImage (fs : String → Option Img) (path : String) : Except HeatmapErr Img :=
  match fs path with
  | none => .error .fileAccess
  | some im => .ok im

/-- One pixel of PIL Image.alpha_composite: the standard over operator on
straight-alpha data with integer rounding (the exact fixed-point rounding
of the PIL C code is not relied upon by any theorem below). -/
def overPx (bg ov : RGBA) : RGBA :=
  let oa := min ov.a 255
  let ba := min bg.a 255
  let outA := oa * 255 + ba * (255 - oa)
  if outA = 0 then ⟨0, 0, 0, 0⟩
  else
    ⟨(ov.r * oa * 255 + bg.r * ba * (255 - oa)) / outA,
     (ov.g * oa * 255 + bg.g * ba * (255 - oa)) / outA,
     (ov.b * oa * 255 + bg.b * ba * (255 - oa)) / outA,
     outA / 255⟩

/-- PIL Image.alpha_composite (line 59): both images must agree in size,
otherwise the call raises (the dimension-mismatch failure); no implicit
resizing happens. -/
def alpha_composite (bg ov : Img) : Except HeatmapErr Img :=
  if bg.width = ov.width ∧ bg.height = ov.height then
    .ok ⟨ov.width, ov.height, fun x y => overPx (bg.px x y) (ov.px x y)⟩
  else .error .dimensionMismatch

/-- Heatmapper.heatmap (lines 44-59): rasterize the points to a greyscale
field, colourise it, apply the opacity; with neither base_path nor
base_img truthy return the overlay alone, otherwise open base_path when
it is truthy (else take base_img) as the background, convert it to RGBA
(the model is already RGBA) and alpha-composite the overlay on top. The
result is paired with the post-call object state: the method assigns no
attribute of self, so that state is the receiver itself. -/
def Heatmapper.heatmap (self : Heatmapper) (width height : Nat)
    (points : List (ℚ × ℚ)) (base_path : Option String)
    (base_img : Option Img) (fs : String → Option Img) :
    Except HeatmapErr Img × Heatmapper :=
  let grey := self.grey_heatmapper.heatmap width height points
  let hm := to_opacity (colourise self.cmap grey) self.opacity
  let result : Except HeatmapErr Img :=
    if !(pathTruthy base_path || imgTruthy base_img) then .ok hm
    else
      let backgroundE : Except HeatmapErr Img :=
        if pathTruthy base_path then openImage fs (base_path.getD "")
        else .ok (base_img.getD ⟨0, 0, fun _ _ => rgbaZero⟩)
      match backgroundE with
      | .error e => .error e
      | .ok background => alpha_composite background hm
  (result, self)

/-! ## Shared concrete artifacts for witnesses -/

/-- A one-file file system holding a 256 x 1 fully transparent reference
image under the bundled default path. -/
def demoFs : String → Option RefImage :=
  fun s => if s = "default.png" then some ⟨List.replicate 256 rgbaZero, 1⟩ else none

/-- A small concrete Heatmapper: empty colormap anchors, full opacity,
default PySide rasterizer with diameter 50 and strength byte 51. -/
def demoHeatmapper : Heatmapper := ⟨[], 1, ⟨50, 51⟩⟩

/-- A concrete 1 x 1 RGBA image. -/
def demoImg : Img := ⟨1, 1, fun _ _ => ⟨10, 20, 30, 200⟩⟩

/-! ## Claims -/

/-- C8: every heatmap() invocation leaves the configuration state of the
Heatmapper (colormap, opacity, grey heatmapper with its diameter and
strength) unchanged: the state returned by the call is the state the call
received, for every input. -/
theorem heatmap_preserves_config (self : Heatmapper) (width height : Nat)
    (points : List (ℚ × ℚ)) (base_path : Option String)
    (base_img : Option Img) (fs : String → Option Img) :
    (self.heatmap width height points base_path base_img fs).2 = self := rfl

/-- C1, counterexample: constructing a Heatmapper with opacity 2, a value
outside [0,1], succeeds; construction performs no validation and raises
no error. -/
theorem init_no_validation_counterexample :
    (Heatmapper.init 50 (1/5) 2 (.str "default") demoFs).isOk = true := by decide

/-- C1, amended: constructing a Heatmapper performs no range validation of
point_diameter, alpha_strength or opacity; for every choice of these
values, including out-of-range ones, construction with a readable
non-degenerate colours source succeeds and raises nothing. -/
theorem init_accepts_any_config (point_diameter alpha_strength opacity : ℚ)
    (fs : String → Option RefImage) (rimg : RefImage)
    (hfs : fs "default.png" = some rimg) (hh : rimg.height ≠ 0) :
    (Heatmapper.init point_diameter alpha_strength opacity
      (.str "default") fs).isOk = true := by
  simp [Heatmapper.init, filesMap, cmap_from_image_path, hfs, hh,
        Except.isOk, Except.toBool]

set_option maxRecDepth 4000 in
/-- C1, witness for the amended claim: the hypotheses hold and the
conclusion follows at the concrete inputs. -/
theorem init_accepts_any_config_witness :
    demoFs "default.png" = some ⟨List.replicate 256 rgbaZero, 1⟩ ∧
    (1 : Nat) ≠ 0 ∧
    (Heatmapper.init 50 (1/5) 2 (.str "default") demoFs).isOk = true :=
  ⟨by decide, by decide,
   init_accepts_any_config 50 (1/5) 2 demoFs ⟨List.replicate 256 rgbaZero, 1⟩
     (by decide) (by decide)⟩

/-- C9: a colours string other than the presets default and reveal is
treated as a filesystem path and opened during construction; when the
path is unreadable or missing, construction fails with the file-access
failure (a typo in a preset name is reported this way, not as a separate
unknown-preset error). -/
theorem init_unknown_preset_is_path (point_diameter alpha_strength opacity : ℚ)
    (s : String) (fs : String → Option RefImage)
    (h1 : s ≠ "default") (h2 : s ≠ "reveal") (h3 : fs s = none) :
    Heatmapper.init point_diameter alpha_strength opacity (.str s) fs
      = .error .fileAccess := by
  simp [Heatmapper.init, filesMap, h1, h2, cmap_from_image_path, h3]

/-- C9, witness: the misspelt preset name defualt with an empty file
system satisfies the hypotheses and construction fails as claimed. -/
theorem init_unknown_preset_is_path_witness :
    "defualt" ≠ "default" ∧ "defualt" ≠ "reveal" ∧
    ((fun _ : String => (none : Option RefImage)) "defualt" = none) ∧
    Heatmapper.init 50 (1/5) (13/20) (.str "defualt")
      (fun _ => none) = .error .fileAccess :=
  ⟨by decide, by decide, rfl,
   init_unknown_preset_is_path 50 (1/5) (13/20) "defualt" (fun _ => none)
     (by decide) (by decide) rfl⟩

/-- Painting points never changes the width of the canvas. -/
theorem paint_points_width (g : PySideGreyHeatmapper) (points : List (ℚ × ℚ))
    (f : GreyField) : (paint_points g points f).width = f.width := by
  induction points generalizing f with
  | nil => rfl
  | cons p ps ih => simpa [paint_points, paint_point] using ih _

/-- Painting points never changes the height of the canvas. -/
theorem paint_points_height (g : PySideGreyHeatmapper) (points : List (ℚ × ℚ))
    (f : GreyField) : (paint_points g points f).height = f.height := by
  induction points generalizing f with
  | nil => rfl
  | cons p ps ih => simpa [paint_points, paint_point] using ih _

/-- C2: when heatmap() receives both an explicit width/height and a
background image whose size differs from (width, height), the call fails
with the dimension-mismatch failure; no implicit resize happens. -/
theorem heatmap_dimension_mismatch (self : Heatmapper) (width height : Nat)
    (points : List (ℚ × ℚ)) (bg : Img) (fs : String → Option Img)
    (hmis : ¬(bg.width = width ∧ bg.height = height)) :
    (self.heatmap width height points none (some bg) fs).1
      = .error .dimensionMismatch := by
  simp [Heatmapper.heatmap, pathTruthy, imgTruthy, alpha_composite,
        to_opacity, putalpha, pointLut, splitAlpha, colourise,
        PySideGreyHeatmapper.heatmap, paint_points_width,
        paint_points_height, hmis]

/-- C2, witness: a 2 x 2 background against a requested 1 x 1 canvas
satisfies the mismatch hypothesis and the call fails as claimed. -/
theorem heatmap_dimension_mismatch_witness :
    ¬((Img.mk 2 2 fun _ _ => rgbaZero).width = 1 ∧
      (Img.mk 2 2 fun _ _ => rgbaZero).height = 1) ∧
    (demoHeatmapper.heatmap 1 1 [] none (some ⟨2, 2, fun _ _ => rgbaZero⟩)
      (fun _ => none)).1 = .error .dimensionMismatch :=
  ⟨by decide,
   heatmap_dimension_mismatch demoHeatmapper 1 1 [] ⟨2, 2, fun _ _ => rgbaZero⟩
     (fun _ => none) (by decide)⟩

/-- C10: when heatmap() is given both a base_path and a base_img, the
base_path takes precedence: the result with both arguments equals the
result with base_path alone, for every width, height and points. -/
theorem heatmap_base_path_precedence (self : Heatmapper) (width height : Nat)
    (points : List (ℚ × ℚ)) (base_path : Option String) (img : Img)
    (fs : String → Option Img) (h : pathTruthy base_path = true) :
    self.heatmap width height points base_path (some img) fs
      = self.heatmap width height points base_path none fs := by
  simp [Heatmapper.heatmap, h, imgTruthy]

/-- C10, witness: with the nonempty path bg.png, the hypothesis holds and
supplying an extra base_img does not change the result. -/
theorem heatmap_base_path_precedence_witness :
    pathTruthy (some "bg.png") = true ∧
    demoHeatmapper.heatmap 1 1 [] (some "bg.png") (some demoImg)
        (fun _ => none)
      = demoHeatmapper.heatmap 1 1 [] (some "bg.png") none (fun _ => none) :=
  ⟨by decide,
   heatmap_base_path_precedence demoHeatmapper 1 1 [] (some "bg.png") demoImg
     (fun _ => none) (by decide)⟩

/-- C3: with an empty points sequence the rasterized greyscale field of
size width x height is uniformly 255 (white, zero density), and for any
colormap whose zero-density anchor (the anchor indexed by the white value
255) has zero alpha, the heatmap returned with no background has alpha 0
at every pixel. -/
theorem heatmap_empty_points_transparent (self : Heatmapper)
    (width height x y : Nat) (fs : String → Option Img)
    (hanchor : (self.cmap.getD 255 qcZero).a = 0) :
    (self.grey_heatmapper.heatmap width height []).width = width ∧
    (self.grey_heatmapper.heatmap width height []).height = height ∧
    (self.grey_heatmapper.heatmap width height []).px x y = 255 ∧
    ((self.heatmap width height [] none none fs).1.map
        fun img => (img.px x y).a) = .ok 0 := by
  refine ⟨rfl, rfl, rfl, ?_⟩
  simp only [List.getD_eq_getElem?_getD] at hanchor
  simp [Heatmapper.heatmap, pathTruthy, imgTruthy, to_opacity, putalpha,
        pointLut, splitAlpha, colourise, PySideGreyHeatmapper.heatmap,
        paint_points, cmapByteIndex, byteOf, hanchor, pyInt, Except.map,
        clip8, Nat.zero_min]

/-- C3, witness: the empty anchor list has a zero-alpha entry at index
255, and the 1 x 1 heatmap from no points is fully transparent. -/
theorem heatmap_empty_points_transparent_witness :
    ((demoHeatmapper.cmap.getD 255 qcZero).a = 0) ∧
    (demoHeatmapper.grey_heatmapper.heatmap 1 1 []).px 0 0 = 255 ∧
    ((demoHeatmapper.heatmap 1 1 [] none none (fun _ => none)).1.map
        fun img => (img.px 0 0).a) = .ok 0 :=
  ⟨by decide,
   (heatmap_empty_points_transparent demoHeatmapper 1 1 0 0 (fun _ => none)
     (by decide)).2.2.1,
   (heatmap_empty_points_transparent demoHeatmapper 1 1 0 0 (fun _ => none)
     (by decide)).2.2.2⟩

/-- Under the no-overflow conditions 0 ≤ q ≤ 255, the point lookup value
int(q) clamped by CLIP8 is just the floor of q. -/
theorem clip8_pyInt_eq (q : ℚ) (h0 : 0 ≤ q) (h255 : q ≤ 255) :
    clip8 (pyInt q) = (⌊q⌋).toNat := by
  have h1 : pyInt q = ⌊q⌋ := by rw [pyInt, if_neg (not_lt.2 h0)]
  have h2 : ⌊q⌋ < 256 := Int.floor_lt.2 (by push_cast; linarith)
  rw [clip8, h1]
  omega

/-- C4: for an 8-bit alpha value and an opacity factor in [0,1], the
opacity stage leaves the R, G and B channels of every pixel unchanged
and replaces each alpha value a by the truncation of a times the opacity
factor, so the new alpha lies in (a * o - 1, a * o]; the input image
itself is returned untouched inside a fresh image value. -/
theorem to_opacity_scales_alpha (img : Img) (opacity : ℚ) (x y : Nat)
    (h0 : 0 ≤ opacity) (h1 : opacity ≤ 1) (hab : (img.px x y).a ≤ 255) :
    ((to_opacity img opacity).px x y).r = (img.px x y).r ∧
    ((to_opacity img opacity).px x y).g = (img.px x y).g ∧
    ((to_opacity img opacity).px x y).b = (img.px x y).b ∧
    (((to_opacity img opacity).px x y).a : ℚ)
      ≤ ((img.px x y).a : ℚ) * opacity ∧
    ((img.px x y).a : ℚ) * opacity - 1
      < (((to_opacity img opacity).px x y).a : ℚ) := by
  have hA0 : (0:ℚ) ≤ ((img.px x y).a : ℚ) := Nat.cast_nonneg _
  have hA : ((img.px x y).a : ℚ) ≤ 255 := by exact_mod_cast hab
  have hq : (0:ℚ) ≤ ((img.px x y).a : ℚ) * opacity := mul_nonneg hA0 h0
  have hq255 : ((img.px x y).a : ℚ) * opacity ≤ 255 := by
    have := mul_le_of_le_one_right hA0 h1
    linarith
  have hfl : (0:ℤ) ≤ ⌊((img.px x y).a : ℚ) * opacity⌋ := Int.floor_nonneg.2 hq
  have ha : (((to_opacity img opacity).px x y).a : ℚ)
      = ((⌊((img.px x y).a : ℚ) * opacity⌋ : ℤ) : ℚ) := by
    show ((clip8 (pyInt (((img.px x y).a : ℚ) * opacity)) : ℚ)) = _
    rw [clip8_pyInt_eq _ hq hq255]
    exact_mod_cast congrArg (fun z : ℤ => (z : ℚ)) (Int.toNat_of_nonneg hfl)
  refine ⟨rfl, rfl, rfl, ?_, ?_⟩
  · rw [ha]; exact Int.floor_le _
  · rw [ha]; exact Int.sub_one_lt_floor _

/-- C4, witness: a pixel with alpha 200 under opacity one half keeps its
colour channels and gets an alpha within one unit below 100. -/
theorem to_opacity_scales_alpha_witness :
    (0 : ℚ) ≤ 1/2 ∧ (1/2 : ℚ) ≤ 1 ∧ (demoImg.px 0 0).a ≤ 255 ∧
    (((to_opacity demoImg (1/2)).px 0 0).r = ((demoImg.px 0 0)).r ∧
     ((to_opacity demoImg (1/2)).px 0 0).g = ((demoImg.px 0 0)).g ∧
     ((to_opacity demoImg (1/2)).px 0 0).b = ((demoImg.px 0 0)).b ∧
     (((to_opacity demoImg (1/2)).px 0 0).a : ℚ)
       ≤ ((demoImg.px 0 0).a : ℚ) * (1/2) ∧
     ((demoImg.px 0 0).a : ℚ) * (1/2) - 1
       < (((to_opacity demoImg (1/2)).px 0 0).a : ℚ)) :=
  ⟨by norm_num, by norm_num, by decide,
   to_opacity_scales_alpha demoImg (1/2) 0 0 (by norm_num) (by norm_num)
     (by decide)⟩

/-- C5: for an 8-bit alpha value, applying the opacity stage with factor
o1 in [0,1] and then with factor o2 in [0,1] agrees with a single
application with the combined factor o1 * o2 up to rounding: colour
channels are identical and the two alpha values differ by at most one
unit. -/
theorem to_opacity_compose (img : Img) (o1 o2 : ℚ) (x y : Nat)
    (h1 : 0 ≤ o1) (h1b : o1 ≤ 1) (h2 : 0 ≤ o2) (h3 : o2 ≤ 1)
    (hab : (img.px x y).a ≤ 255) :
    ((to_opacity (to_opacity img o1) o2).px x y).r
      = ((to_opacity img (o1 * o2)).px x y).r ∧
    ((to_opacity (to_opacity img o1) o2).px x y).g
      = ((to_opacity img (o1 * o2)).px x y).g ∧
    ((to_opacity (to_opacity img o1) o2).px x y).b
      = ((to_opacity img (o1 * o2)).px x y).b ∧
    ((to_opacity (to_opacity img o1) o2).px x y).a
      ≤ ((to_opacity img (o1 * o2)).px x y).a ∧
    ((to_opacity img (o1 * o2)).px x y).a
      ≤ ((to_opacity (to_opacity img o1) o2).px x y).a + 1 := by
  have hA : (0:ℚ) ≤ ((img.px x y).a : ℚ) := Nat.cast_nonneg _
  have hA255 : ((img.px x y).a : ℚ) ≤ 255 := by exact_mod_cast hab
  have hq1 : (0:ℚ) ≤ ((img.px x y).a : ℚ) * o1 := mul_nonneg hA h1
  have hq1b : ((img.px x y).a : ℚ) * o1 ≤ 255 := by
    have := mul_le_of_le_one_right hA h1b
    linarith
  have hn1 : (0:ℤ) ≤ ⌊((img.px x y).a : ℚ) * o1⌋ := Int.floor_nonneg.2 hq1
  have hBn : ((to_opacity img o1).px x y).a
      = (⌊((img.px x y).a : ℚ) * o1⌋).toNat := by
    show clip8 (pyInt (((img.px x y).a : ℚ) * o1)) = _
    exact clip8_pyInt_eq _ hq1 hq1b
  have hB : (((to_opacity img o1).px x y).a : ℚ)
      = ((⌊((img.px x y).a : ℚ) * o1⌋ : ℤ) : ℚ) := by
    rw [hBn]
    exact_mod_cast congrArg (fun z : ℤ => (z : ℚ)) (Int.toNat_of_nonneg hn1)
  have hq2 : (0:ℚ) ≤ (((to_opacity img o1).px x y).a : ℚ) * o2 :=
    mul_nonneg (Nat.cast_nonneg _) h2
  have hq2b : (((to_opacity img o1).px x y).a : ℚ) * o2 ≤ 255 := by
    have hfle : ((⌊((img.px x y).a : ℚ) * o1⌋ : ℤ) : ℚ)
        ≤ ((img.px x y).a : ℚ) * o1 := Int.floor_le _
    have hBle : (((to_opacity img o1).px x y).a : ℚ) ≤ 255 := by
      rw [hB]; linarith
    have := mul_le_of_le_one_right (Nat.cast_nonneg
      ((to_opacity img o1).px x y).a) h3
    linarith
  have hq : (0:ℚ) ≤ ((img.px x y).a : ℚ) * (o1 * o2) :=
    mul_nonneg hA (mul_nonneg h1 h2)
  have hqb : ((img.px x y).a : ℚ) * (o1 * o2) ≤ 255 := by
    have h12 : o1 * o2 ≤ 1 := by nlinarith
    have := mul_le_of_le_one_right hA h12
    linarith
  have e2 : ((to_opacity (to_opacity img o1) o2).px x y).a
      = (⌊(((to_opacity img o1).px x y).a : ℚ) * o2⌋).toNat := by
    show clip8 (pyInt ((((to_opacity img o1).px x y).a : ℚ) * o2)) = _
    exact clip8_pyInt_eq _ hq2 hq2b
  have e1 : ((to_opacity img (o1 * o2)).px x y).a
      = (⌊((img.px x y).a : ℚ) * (o1 * o2)⌋).toNat := by
    show clip8 (pyInt (((img.px x y).a : ℚ) * (o1 * o2))) = _
    exact clip8_pyInt_eq _ hq hqb
  have hst : ⌊(((to_opacity img o1).px x y).a : ℚ) * o2⌋
      ≤ ⌊((img.px x y).a : ℚ) * (o1 * o2)⌋ := by
    apply Int.floor_mono
    rw [hB, ← mul_assoc]
    exact mul_le_mul_of_nonneg_right (Int.floor_le _) h2
  have hts : ⌊((img.px x y).a : ℚ) * (o1 * o2)⌋
      ≤ ⌊(((to_opacity img o1).px x y).a : ℚ) * o2⌋ + 1 := by
    have hub : ((img.px x y).a : ℚ) * (o1 * o2)
        ≤ (((to_opacity img o1).px x y).a : ℚ) * o2 + 1 := by
      rw [hB, ← mul_assoc]
      have h4 : ((img.px x y).a : ℚ) * o1
          ≤ ((⌊((img.px x y).a : ℚ) * o1⌋ : ℤ) : ℚ) + 1 :=
        le_of_lt (Int.lt_floor_add_one _)
      calc ((img.px x y).a : ℚ) * o1 * o2
          ≤ (((⌊((img.px x y).a : ℚ) * o1⌋ : ℤ) : ℚ) + 1) * o2 :=
            mul_le_mul_of_nonneg_right h4 h2
        _ = ((⌊((img.px x y).a : ℚ) * o1⌋ : ℤ) : ℚ) * o2 + o2 := by ring
        _ ≤ ((⌊((img.px x y).a : ℚ) * o1⌋ : ℤ) : ℚ) * o2 + 1 := by linarith
    calc ⌊((img.px x y).a : ℚ) * (o1 * o2)⌋
        ≤ ⌊(((to_opacity img o1).px x y).a : ℚ) * o2 + 1⌋ := Int.floor_mono hub
      _ = ⌊(((to_opacity img o1).px x y).a : ℚ) * o2⌋ + 1 := Int.floor_add_one _
  have hs0 : (0:ℤ) ≤ ⌊(((to_opacity img o1).px x y).a : ℚ) * o2⌋ :=
    Int.floor_nonneg.2 hq2
  refine ⟨rfl, rfl, rfl, ?_, ?_⟩
  · rw [e2, e1]; omega
  · rw [e2, e1]; omega

/-- C5, witness: with alpha 200 and both factors one half, the sequential
and the combined application agree exactly at the checked pixel. -/
theorem to_opacity_compose_witness :
    (0 : ℚ) ≤ 1/2 ∧ (1/2 : ℚ) ≤ 1 ∧ (0 : ℚ) ≤ 1/2 ∧ (1/2 : ℚ) ≤ 1 ∧
    (demoImg.px 0 0).a ≤ 255 ∧
    ((to_opacity (to_opacity demoImg (1/2)) (1/2)).px 0 0).a
      ≤ ((to_opacity demoImg (1/2 * (1/2 : ℚ))).px 0 0).a ∧
    ((to_opacity demoImg (1/2 * (1/2 : ℚ))).px 0 0).a
      ≤ ((to_opacity (to_opacity demoImg (1/2)) (1/2)).px 0 0).a + 1 :=
  ⟨by norm_num, by norm_num, by norm_num, by norm_num, by decide,
   (to_opacity_compose demoImg (1/2) (1/2) 0 0 (by norm_num) (by norm_num)
     (by norm_num) (by norm_num) (by decide)).2.2.2.1,
   (to_opacity_compose demoImg (1/2) (1/2) 0 0 (by norm_num) (by norm_num)
     (by norm_num) (by norm_num) (by decide)).2.2.2.2⟩

/-- Compositing any brush over a pixel never lightens it. -/
theorem srcOver_le (v a : Nat) : srcOver v a ≤ v := by
  calc v * (255 - a) / 255 ≤ v * 255 / 255 :=
        Nat.div_le_div_right (Nat.mul_le_mul (Nat.le_refl v) (Nat.sub_le 255 a))
    _ = v := Nat.mul_div_cancel v (by norm_num)

/-- C7: for every location and every positive point strength, rasterizing
two identical points at that location yields a greyscale value at every
pixel that is darker than or equal to, never lighter than, the value from
rasterizing the single point: accumulation darkens and saturates. -/
theorem double_point_darker (g : PySideGreyHeatmapper) (width height : Nat)
    (pt : ℚ × ℚ) (x y : Nat) (_hs : 0 < g.point_strength) :
    (g.heatmap width height [pt, pt]).px x y
      ≤ (g.heatmap width height [pt]).px x y :=
  srcOver_le _ _

/-- C7, witness: with strength byte 51 and diameter 50, two points at
(5, 5) on a 10 x 10 canvas give a value at (5, 5) at most the single
point value. -/
theorem double_point_darker_witness :
    (0 : ℤ) < (51 : ℤ) ∧
    ((PySideGreyHeatmapper.mk 50 51).heatmap 10 10 [(5, 5), (5, 5)]).px 5 5
      ≤ ((PySideGreyHeatmapper.mk 50 51).heatmap 10 10 [(5, 5)]).px 5 5 :=
  ⟨by decide, double_point_darker ⟨50, 51⟩ 10 10 (5, 5) 5 5 (by decide)⟩

/-- Normalising a byte by 255 and rescaling it by 255 with truncation is
the identity. -/
theorem byte_norm_roundtrip (c : Nat) : (pyInt ((c : ℚ) / 255 * 255)).toNat = c := by
  have hc : ((c : ℚ) / 255) * 255 = (c : ℚ) :=
    div_mul_cancel₀ _ (by norm_num)
  rw [pyInt, hc, if_neg (not_lt.2 (Nat.cast_nonneg c)), Int.floor_natCast]
  exact Int.toNat_natCast c

/-- C6: building a colormap from a 256 x 1 reference image (256 columns,
so the resize to 256 columns is the identity) and sampling it at the 256
evenly spaced positions i / 255 of [0,1] reproduces the original 256
pixel colours exactly. -/
theorem cmap_roundtrip (row : List RGBA) (i : Nat)
    (hlen : row.length = 256) (hi : i < 256) :
    cmapFloat (cmapFromImagePixels (resize256 row)) ((i : ℚ) / 255)
      = row.getD i rgbaZero := by
  have hres : resize256 row = row := by rw [resize256, if_pos hlen]
  have hidx : min (pyInt ((i : ℚ) / 255 * 256)).toNat 255 = i := by
    by_cases h255 : i = 255
    · subst h255
      rw [show ((255:ℕ) : ℚ) / 255 * 256 = ((256:ℕ) : ℚ) by norm_num,
          pyInt, if_neg (not_lt.2 (Nat.cast_nonneg 256)), Int.floor_natCast,
          Int.toNat_natCast]
      omega
    · have hlt : i < 255 := by omega
      have h0 : (0:ℚ) ≤ (i : ℚ) / 255 * 256 := by positivity
      have hfl : ⌊(i : ℚ) / 255 * 256⌋ = (i : ℤ) := by
        rw [Int.floor_eq_iff]
        have hiq : ((i : ℚ)) < 255 := by exact_mod_cast hlt
        have hiq0 : (0:ℚ) ≤ (i : ℚ) := Nat.cast_nonneg i
        constructor
        · rw [div_mul_eq_mul_div, le_div_iff₀ (by norm_num : (0:ℚ) < 255)]
          push_cast
          nlinarith
        · rw [div_mul_eq_mul_div, div_lt_iff₀ (by norm_num : (0:ℚ) < 255)]
          push_cast
          nlinarith
      rw [pyInt, if_neg (not_lt.2 h0), hfl, Int.toNat_natCast]
      omega
  have hi' : i < row.length := by omega
  rw [cmapFloat, hres, hidx, cmapFromImagePixels,
      List.getD_eq_getElem?_getD, List.getElem?_map,
      List.getElem?_eq_getElem hi', List.getD_eq_getElem?_getD,
      List.getElem?_eq_getElem hi']
  simp only [Option.map_some', Option.getD_some, byteOf, byte_norm_roundtrip]

/-- C6, witness: a constant 256 x 1 reference row round-trips at sample
position 7. -/
theorem cmap_roundtrip_witness :
    (List.replicate 256 (RGBA.mk 7 20 33 44)).length = 256 ∧ 7 < 256 ∧
    cmapFloat (cmapFromImagePixels (resize256 (List.replicate 256 ⟨7, 20, 33, 44⟩)))
        ((7 : ℚ) / 255)
      = (List.replicate 256 (RGBA.mk 7 20 33 44)).getD 7 rgbaZero :=
  ⟨by rw [List.length_replicate], by decide,
   cmap_roundtrip (List.replicate 256 ⟨7, 20, 33, 44⟩) 7
     (by rw [List.length_replicate]) (by decide)⟩
